import Mathlib

/-!
Verification of the TikZ/PGFPlots generator (pgfplots_generator.py).

The Python program is shallowly embedded: every pure transformation of the
source is translated into a Lean function on `String` / `List Char`, numeric
values are modelled as rationals, and the interactive re-prompt loops are
modelled as functions over the list of successive user input lines.
Regular-expression substitutions of the source are translated into explicit
character-list recursions that implement the same matching semantics.
-/

/-- Model of the ASCII whitespace class used by Python's regex shorthand and
by str.strip / float (space, tab, newline, carriage return, vertical tab,
form feed). -/
def isPyWS (c : Char) : Bool :=
  c == ' ' || c == '\t' || c == '\n' || c == '\r' || c == '\x0b' || c == '\x0c'

/-- Drop leading whitespace characters. -/
def dropWS : List Char → List Char
  | [] => []
  | c :: r => if isPyWS c then dropWS r else c :: r

/-- Model of Python str.strip on character lists: remove leading and trailing
whitespace. -/
def stripChars (cs : List Char) : List Char :=
  (dropWS (dropWS cs).reverse).reverse

/-- Model of Python str.strip at the String level. -/
def pyStrip (s : String) : String := ⟨stripChars s.data⟩

/-- The module-level PREAMBLE constant of pgfplots_generator.py
(lines 15 to 22). -/
def PREAMBLE : String :=
  "Preamble to copy-paste:\n\\usepackage\x7btikz\x7d\n\\usepackage\x7bpgfplots\x7d\n\\pgfplotsset\x7bcompat=1.18,width=\\linewidth,height=0.5\\textheight,tick align=outside,grid=major,trig format plots=rad\x7d\n"

/-- Model of the Python replacement of two consecutive asterisks by a caret
in generate_pgfplots_equation line 156 (str.replace semantics: leftmost,
non-overlapping). -/
def starToCaret : List Char → List Char
  | '*' :: '*' :: rest => '^' :: starToCaret rest
  | c :: rest => c :: starToCaret rest
  | [] => []

/-- Whether an optional character is an ASCII letter (the regex class
[A-Za-z]); a missing neighbour counts as not a letter. -/
def optAlpha : Option Char → Bool
  | some c => c.isAlpha
  | none => false

/-- Worker for `substX`: `p` is the character immediately before the current
position in the original text (none at the start of the text). -/
def substXAux : Option Char → List Char → List Char
  | _, [] => []
  | p, c :: rest =>
    if c == 'x' && !optAlpha p && !optAlpha rest.head? then
      '\\' :: 'x' :: substXAux (some c) rest
    else
      c :: substXAux (some c) rest

/-- Model of the regex substitution of generate_pgfplots_equation line 158:
an x that is neither preceded nor followed by an ASCII letter (lookbehind and
lookahead on the original text) is replaced by backslash x. -/
def substX (cs : List Char) : List Char := substXAux none cs

/-- Model of the Python replacement of the substring log( by ln( in
generate_pgfplots_equation line 160 (str.replace semantics: leftmost,
non-overlapping rewriting of every occurrence of the four-character
pattern). -/
def replaceLogChars : List Char → List Char
  | a :: b :: c :: d :: rest =>
    if a == 'l' && b == 'o' && c == 'g' && d == '(' then
      'l' :: 'n' :: '(' :: replaceLogChars rest
    else
      a :: replaceLogChars (b :: c :: d :: rest)
  | a :: rest => a :: replaceLogChars rest
  | [] => []

/-- The curve-text pipeline of generate_pgfplots_equation lines 154 to 160,
applied to the infix serialization of the sympy expression: convert ** to ^,
replace standalone x by backslash x, then convert log( to ln(. -/
def eqCurveText (raw : String) : String :=
  ⟨replaceLogChars (substX (starToCaret raw.data))⟩

/-- String-level wrapper of `replaceLogChars`. -/
def replaceLogStr (s : String) : String := ⟨replaceLogChars s.data⟩

/-- Fixed template text of generate_pgfplots_equation between PREAMBLE and the
domain clause (lines 162 to 165 of the source). -/
def eqHeaderRest : String :=
  "\n\\begin\x7btikzpicture\x7d  % start TikZ environment\n  \\begin\x7baxis\x7d[  % configure axis settings\n    "

/-- Template text of generate_pgfplots_equation after the domain clause
(lines 165 to 173 of the source), with the axis labels, the color and the
rewritten curve text substituted in. -/
def eqTail (expr_raw x_label y_label color : String) : String :=
  ", samples=200,  % set domain & sampling\n     axis lines=middle,  % draw axes through origin\n     xlabel=\x7b" ++
  x_label ++ "\x7d, ylabel=\x7b" ++ y_label ++
  "\x7d,  % label axes\n     grid=major,  % add major grid lines\n     enlargelimits=true  % add padding around plot\n   ]\n    \\addplot [smooth, thick, color=" ++
  color ++ "] \x7b " ++ eqCurveText expr_raw ++
  " \x7d;  % draw the curve (change \x27color\x27 option to any valid LaTeX color name)\n  \\end\x7baxis\x7d  % end axis environment\n\\end\x7btikzpicture\x7d  % end TikZ environment\n"

/-- Model of generate_pgfplots_equation (lines 138 to 174). The sympy
expression argument is represented by its infix serialization `expr_raw`
(the Python str(expr)); the two domain bounds are represented by their
decimal renderings, exactly as the f-string interpolates them. -/
def generate_pgfplots_equation
    (expr_raw xminS xmaxS x_label y_label color : String) : String :=
  PREAMBLE ++ eqHeaderRest ++ ("domain=" ++ xminS ++ ":" ++ xmaxS) ++
    eqTail expr_raw x_label y_label color

/-- Serialization of one coordinate pair by generate_tikz_coordinates line
190: the two numeric components are represented by their decimal
renderings. -/
def pairTex (p : String × String) : String :=
  "(" ++ p.1 ++ "," ++ p.2 ++ ")"

/-- Model of Python join with a single-space separator: concatenate with one
space between consecutive elements. -/
def joinSpace : List String → String
  | [] => ""
  | [s] => s
  | s :: rest => s ++ " " ++ joinSpace rest

/-- Template text of generate_tikz_coordinates between PREAMBLE and the
coordinates clause (lines 193 to 200), with labels and color substituted. -/
def coordHeaderRest (x_label y_label color : String) : String :=
  "\n\\begin\x7btikzpicture\x7d  % start TikZ environment\n  \\begin\x7baxis\x7d[  % configure axis for coordinate plot\n    axis lines=middle,  % draw axes through origin\n    grid=major,  % add grid\n    xlabel=\x7b" ++
  x_label ++ "\x7d, ylabel=\x7b" ++ y_label ++
  "\x7d,  % label axes\n    enlargelimits=true  % add padding around plot\n  ]\n    \\addplot [thick, color=" ++
  color ++ "] "

/-- Fixed template text of generate_tikz_coordinates after the coordinates
clause (lines 200 to 202). -/
def coordTail : String :=
  ";  % plot given coordinates (change \x27color\x27 to desired color)\n  \\end\x7baxis\x7d  % end axis environment\n\\end\x7btikzpicture\x7d  % end TikZ environment\n"

/-- Model of generate_tikz_coordinates (lines 176 to 203). Each point is
represented by the decimal renderings of its two float components, exactly as
the f-string interpolates them. -/
def generate_tikz_coordinates
    (points : List (String × String)) (x_label y_label color : String) : String :=
  PREAMBLE ++ coordHeaderRest x_label y_label color ++
    ("coordinates \x7b" ++ joinSpace (points.map pairTex) ++ "\x7d") ++ coordTail

/-- Substring containment at the String level. -/
def strContains (big sub : String) : Prop :=
  ∃ u v : String, big = u ++ sub ++ v

theorem strAppend_assoc (s t u : String) : s ++ t ++ u = s ++ (t ++ u) := by
  rcases s with ⟨a⟩; rcases t with ⟨b⟩; rcases u with ⟨c⟩
  exact congrArg String.mk (List.append_assoc a b c)

/-- C6: every equation-mode output contains the literal text
domain=xmin:xmax, with the two bounds inserted exactly as given. -/
theorem domain_clause_in_equation_output
    (expr_raw xminS xmaxS x_label y_label color : String) :
    strContains (generate_pgfplots_equation expr_raw xminS xmaxS x_label y_label color)
      ("domain=" ++ xminS ++ ":" ++ xmaxS) :=
  ⟨PREAMBLE ++ eqHeaderRest, eqTail expr_raw x_label y_label color, rfl⟩

/-- C8: both rendering functions produce output that starts with the one
fixed PREAMBLE constant, whatever the request content is; the shared prefix
is byte-identical between the two modes because it is the same constant. -/
theorem preamble_shared_by_both_modes
    (expr_raw xminS xmaxS xl yl col : String)
    (points : List (String × String)) (xl2 yl2 col2 : String) :
    (∃ r, generate_pgfplots_equation expr_raw xminS xmaxS xl yl col = PREAMBLE ++ r) ∧
    (∃ r, generate_tikz_coordinates points xl2 yl2 col2 = PREAMBLE ++ r) := by
  constructor
  · exact ⟨eqHeaderRest ++ ("domain=" ++ xminS ++ ":" ++ xmaxS) ++
      eqTail expr_raw xl yl col, by simp [generate_pgfplots_equation, strAppend_assoc]⟩
  · exact ⟨coordHeaderRest xl2 yl2 col2 ++
      ("coordinates \x7b" ++ joinSpace (points.map pairTex) ++ "\x7d") ++ coordTail,
      by simp [generate_tikz_coordinates, strAppend_assoc]⟩

/-- Whether the character at index i of the text is an ASCII letter; out of
range counts as not a letter. -/
def alphaAt (cs : List Char) (i : Nat) : Bool := optAlpha cs[i]?

/-- Index-based specification of the standalone-x substitution, written from
the spec sentence: a character is rewritten to backslash-x exactly when it is
an x whose neighbouring characters in the original text (the one before,
known through `p` at position 0, and the one after) are not letters; every
other character is kept unchanged. -/
def specAux (p : Option Char) (cs : List Char) : List Char :=
  (List.range cs.length).flatMap fun i =>
    if (cs[i]?.getD ' ') == 'x'
        && !(if i = 0 then optAlpha p else alphaAt cs (i - 1))
        && !alphaAt cs (i + 1)
    then ['\\', 'x'] else [cs[i]?.getD ' ']

/-- Specification of `substX` from the spec's words (no preceding character
exists at the start of the text). -/
def substX_spec (cs : List Char) : List Char := specAux none cs

theorem alphaAt_cons_succ (c : Char) (cs : List Char) (i : Nat) :
    alphaAt (c :: cs) (i + 1) = alphaAt cs i := by
  simp [alphaAt]

theorem alphaAt_cons_zero (c : Char) (cs : List Char) :
    alphaAt (c :: cs) 0 = c.isAlpha := by
  simp [alphaAt, optAlpha]

theorem optAlpha_head (cs : List Char) : optAlpha cs.head? = alphaAt cs 0 := by
  cases cs <;> simp [alphaAt, optAlpha]

theorem specAux_cons (p : Option Char) (c : Char) (cs : List Char) :
    specAux p (c :: cs) =
      (if c == 'x' && !optAlpha p && !optAlpha cs.head? then ['\\', 'x'] else [c]) ++
        specAux (some c) cs := by
  rw [specAux, specAux]
  simp only [List.length_cons, List.range_succ_eq_map, List.flatMap_cons, List.flatMap_map,
    Nat.succ_eq_add_one]
  congr 1
  · have h1 : alphaAt (c :: cs) (0 + 1) = optAlpha cs.head? := by
      rw [alphaAt_cons_succ, optAlpha_head]
    simp [h1]
  · apply List.flatMap_congr
    intro i _
    have h1 : (c :: cs)[i + 1]? = cs[i]? := List.getElem?_cons_succ ..
    have h2 : (if i + 1 = 0 then optAlpha p else alphaAt (c :: cs) (i + 1 - 1)) =
        (if i = 0 then optAlpha (some c) else alphaAt cs (i - 1)) := by
      rw [if_neg (Nat.succ_ne_zero i)]
      cases i with
      | zero => simp [alphaAt_cons_zero, optAlpha]
      | succ j => simp [alphaAt_cons_succ]
    rw [h1, h2, alphaAt_cons_succ]

theorem substXAux_eq_specAux (cs : List Char) :
    ∀ p : Option Char, substXAux p cs = specAux p cs := by
  induction cs with
  | nil => intro p; rfl
  | cons c cs ih =>
    intro p
    rw [specAux_cons, substXAux]
    by_cases h : (c == 'x' && !optAlpha p && !optAlpha cs.head?) = true
    · rw [if_pos h, if_pos h, ih]; rfl
    · rw [if_neg h, if_neg h, ih]; rfl

/-- C1: the equation renderer rewrites exactly the standalone occurrences of
x in the serialized expression text (an x with no ASCII letter immediately
before or after) to the backslash-prefixed token, and leaves x embedded in
longer identifiers untouched; on the serialization of the parsed input
y = x^2 + sin(x) the rendered curve text is backslash-x caret 2 plus
sin of backslash-x, so it contains sin(\x) with sin untouched. -/
theorem c1_standalone_x_substitution :
    (∀ cs : List Char, substX cs = substX_spec cs) ∧
    eqCurveText "x**2 + sin(x)" = "\\x^2 + sin(\\x)" ∧
    strContains (eqCurveText "x**2 + sin(x)") "sin(\\x)" :=
  ⟨fun cs => substXAux_eq_specAux cs none, by decide, ⟨"\\x^2 + ", "", by decide⟩⟩

/-- Whether the text begins with the four characters of the pattern log(. -/
def startsLogB : List Char → Bool
  | a :: b :: c :: d :: _ => a == 'l' && b == 'o' && c == 'g' && d == '('
  | _ => false

/-- Whether the four-character pattern log( occurs anywhere in the text. -/
def containsLogB : List Char → Bool
  | [] => false
  | c :: r => startsLogB (c :: r) || containsLogB r

theorem replaceLog_match (rest : List Char) :
    replaceLogChars ('l' :: 'o' :: 'g' :: '(' :: rest) =
      'l' :: 'n' :: '(' :: replaceLogChars rest := by
  simp [replaceLogChars]

theorem replaceLog_step (c : Char) (r : List Char) (h : startsLogB (c :: r) = false) :
    replaceLogChars (c :: r) = c :: replaceLogChars r := by
  match r with
  | [] => rfl
  | [d] => rfl
  | [d, e] => rfl
  | d :: e :: f :: rest =>
    have hcond : (c == 'l' && d == 'o' && e == 'g' && f == '(') = false := h
    simp [replaceLogChars, hcond]

theorem startsLog_append (c : Char) (u v : List Char) (h : startsLogB (c :: u) = false) :
    startsLogB (c :: (u ++ 'l' :: 'o' :: 'g' :: '(' :: v)) = false := by
  match u with
  | [] => simp [startsLogB]
  | [d] => simp [startsLogB]
  | [d, e] => simp [startsLogB]
  | d :: e :: f :: rest => exact h

theorem startsLog_inv (w : List Char) (h : startsLogB w = true) :
    ∃ r, w = 'l' :: 'o' :: 'g' :: '(' :: r := by
  match w with
  | [] => simp [startsLogB] at h
  | [a] => simp [startsLogB] at h
  | [a, b] => simp [startsLogB] at h
  | [a, b, c] => simp [startsLogB] at h
  | a :: b :: c :: d :: r =>
    have h' : (a == 'l' && b == 'o' && c == 'g' && d == '(') = true := h
    simp only [Bool.and_eq_true, beq_iff_eq] at h'
    obtain ⟨⟨⟨h1, h2⟩, h3⟩, h4⟩ := h'
    subst h1; subst h2; subst h3; subst h4
    exact ⟨r, rfl⟩

theorem replaceLog_hom_aux :
    ∀ (n : Nat) (u v : List Char), u.length ≤ n →
      replaceLogChars (u ++ 'l' :: 'o' :: 'g' :: '(' :: v) =
        replaceLogChars u ++ 'l' :: 'n' :: '(' :: replaceLogChars v := by
  intro n
  induction n with
  | zero =>
    intro u v h
    have hu : u = [] := List.eq_nil_of_length_eq_zero (Nat.le_zero.mp h)
    subst hu
    simp [replaceLog_match, replaceLogChars]
  | succ n ih =>
    intro u v h
    cases u with
    | nil => simp [replaceLog_match, replaceLogChars]
    | cons c u' =>
      by_cases hs : startsLogB (c :: u') = true
      · obtain ⟨r, hr⟩ := startsLog_inv _ hs
        rw [hr]
        have hlen : r.length ≤ n := by
          rw [hr] at h; simp at h; omega
        simp only [List.cons_append]
        rw [replaceLog_match, replaceLog_match, ih r v hlen]
        simp
      · have hs' : startsLogB (c :: u') = false := by
          exact Bool.not_eq_true _ ▸ eq_false_of_ne_true hs
        have hlen : u'.length ≤ n := by simp at h; omega
        have hstep := replaceLog_step c (u' ++ 'l' :: 'o' :: 'g' :: '(' :: v)
          (startsLog_append c u' v hs')
        simp only [List.cons_append]
        rw [hstep, ih u' v hlen, replaceLog_step c u' hs']
        simp

/-- C5 counterexample: in the serialized text zlog(x) the substring log( is
the tail of the longer identifier zlog, not a function call named log, yet
the rewrite of line 160 changes it, so the rewrite is not restricted to
function calls named log; the full curve-text pipeline shows the same
behaviour. -/
theorem c5_counterexample_zlog :
    replaceLogStr "zlog(x)" = "zln(x)" ∧
    replaceLogStr "zlog(x)" ≠ "zlog(x)" ∧
    eqCurveText "zlog(x)" = "zln(\\x)" := by
  refine ⟨by decide, by decide, by decide⟩

/-- C5 amended: the rewrite of line 160 rewrites every occurrence of the
substring log( in the serialized expression text to ln( (including
occurrences inside a longer identifier), and text containing no occurrence
of log( is left completely unchanged. -/
theorem c5_amended_every_log_occurrence_rewritten :
    (∀ u v : List Char,
        replaceLogChars (u ++ 'l' :: 'o' :: 'g' :: '(' :: v) =
          replaceLogChars u ++ 'l' :: 'n' :: '(' :: replaceLogChars v) ∧
    (∀ cs : List Char, containsLogB cs = false → replaceLogChars cs = cs) := by
  constructor
  · exact fun u v => replaceLog_hom_aux u.length u v le_rfl
  · intro cs h
    induction cs with
    | nil => rfl
    | cons c r ih =>
      rw [containsLogB] at h
      simp only [Bool.or_eq_false_iff] at h
      rw [replaceLog_step c r h.1, ih h.2]

/-- Witness for the amended C5 theorem at concrete inputs: an occurrence of
log( inside the text x + log(x) is rewritten, and sin(x) which contains no
log( is unchanged. -/
theorem c5_amended_every_log_occurrence_rewritten_witness :
    (replaceLogChars ("x + ".data ++ 'l' :: 'o' :: 'g' :: '(' :: "x)".data) =
      replaceLogChars "x + ".data ++ 'l' :: 'n' :: '(' :: replaceLogChars "x)".data) ∧
    replaceLogChars "sin(x)".data = "sin(x)".data :=
  ⟨c5_amended_every_log_occurrence_rewritten.1 "x + ".data "x)".data,
   c5_amended_every_log_occurrence_rewritten.2 "sin(x)".data (by decide)⟩

/-- Model of the caret rewrite of prompt_equation line 56: every caret in the
input text is replaced by two asterisks (str.replace semantics). The same
function also builds, for any input, the equivalent input written with the
double-asterisk power operator instead of the caret. -/
def caretToStars : List Char → List Char
  | [] => []
  | c :: r => if c == '^' then '*' :: '*' :: caretToStars r else c :: caretToStars r

/-- Model of the regex substitution of prompt_equation line 58: after every
digit that is immediately followed by an ASCII letter or an opening
parenthesis, an explicit multiplication asterisk is inserted (lookahead, so
the following character is kept). -/
def insertMul : List Char → List Char
  | [] => []
  | [c] => [c]
  | c :: d :: r =>
    if c.isDigit && (d.isAlpha || d == '(') then c :: '*' :: insertMul (d :: r)
    else c :: insertMul (d :: r)

/-- Model of the anchored regex of prompt_equation line 54: optional
whitespace, one ASCII letter, optional whitespace, an equals sign, optional
whitespace. Returns the text after the matched region, or none when the
input does not start with such an assignment head. -/
def matchAssign (cs : List Char) : Option (List Char) :=
  match dropWS cs with
  | [] => none
  | c :: r =>
    if c.isAlpha then
      match dropWS r with
      | [] => none
      | d :: r2 => if d == '=' then some (dropWS r2) else none
    else none

/-- The regex substitution of line 54 as a total rewrite: when the
single-letter assignment head matches it is removed, otherwise the text is
returned unchanged. -/
def stripAssign (cs : List Char) : List Char := (matchAssign cs).getD cs

/-- The three normalization rewrites of prompt_equation lines 54 to 58 in
source order: strip the assignment head, rewrite carets to double asterisks,
insert explicit multiplication between a digit and a following letter or
opening parenthesis. -/
def eqNormalize (cs : List Char) : List Char := insertMul (caretToStars (stripAssign cs))

/-- String-level wrapper of `eqNormalize` (prompt_equation applies it to the
whitespace-stripped input line). -/
def eqNormalizeStr (s : String) : String := ⟨eqNormalize s.data⟩

/-- Whether a character may continue an identifier (letter, digit or
underscore). -/
def isIdentChar (c : Char) : Bool := c.isAlpha || c.isDigit || c == '_'

/-- Version of `matchAssign` written from the claim's words, which speak of
an optional leading identifier-equals assignment head: an identifier is a
letter followed by any number of identifier characters, not just a single
letter. -/
def matchAssignIdent (cs : List Char) : Option (List Char) :=
  match dropWS cs with
  | [] => none
  | c :: r =>
    if c.isAlpha then
      match dropWS (r.dropWhile isIdentChar) with
      | [] => none
      | d :: r2 => if d == '=' then some (dropWS r2) else none
    else none

/-- Normalization as the claim words it, with the identifier-wide assignment
head strip. -/
def eqNormalizeClaim (cs : List Char) : List Char :=
  insertMul (caretToStars ((matchAssignIdent cs).getD cs))

theorem dropWS_caretToStars (cs : List Char) :
    dropWS (caretToStars cs) = caretToStars (dropWS cs) := by
  induction cs with
  | nil => rfl
  | cons c r ih =>
    by_cases hc : (c == '^') = true
    · have hc' : c = '^' := beq_iff_eq.mp hc
      subst hc'
      simp [caretToStars, dropWS, isPyWS]
    · have hcb : (c == '^') = false := eq_false_of_ne_true hc
      by_cases hw : isPyWS c = true
      · simp [caretToStars, dropWS, hcb, hw, ih]
      · have hwb : isPyWS c = false := eq_false_of_ne_true hw
        simp [caretToStars, dropWS, hcb, hwb]

theorem caret_not_mem_caretToStars (cs : List Char) : '^' ∉ caretToStars cs := by
  induction cs with
  | nil => simp [caretToStars]
  | cons c r ih =>
    by_cases hc : (c == '^') = true
    · simp [caretToStars, hc]
      exact ih
    · have hcb : (c == '^') = false := eq_false_of_ne_true hc
      simp only [caretToStars, hcb, Bool.false_eq_true, if_false, List.mem_cons, not_or]
      refine ⟨?_, ih⟩
      intro h
      subst h
      exact hc (by decide)

theorem caretToStars_id (cs : List Char) (h : '^' ∉ cs) : caretToStars cs = cs := by
  induction cs with
  | nil => rfl
  | cons c r ih =>
    simp only [List.mem_cons, not_or] at h
    have hcb : (c == '^') = false := by
      cases hb : c == '^'
      · rfl
      · exact absurd (beq_iff_eq.mp hb).symm h.1
    simp [caretToStars, hcb, ih h.2]

theorem caretToStars_idem (cs : List Char) :
    caretToStars (caretToStars cs) = caretToStars cs :=
  caretToStars_id _ (caret_not_mem_caretToStars cs)

theorem matchAssign_caretToStars (cs : List Char) :
    matchAssign (caretToStars cs) = (matchAssign cs).map caretToStars := by
  rw [matchAssign, matchAssign, dropWS_caretToStars]
  cases h : dropWS cs with
  | nil => rfl
  | cons c r =>
    by_cases hc : (c == '^') = true
    · have hc' : c = '^' := beq_iff_eq.mp hc
      subst hc'
      simp [caretToStars, Char.isAlpha, Char.isUpper, Char.isLower]
    · have hcb : (c == '^') = false := eq_false_of_ne_true hc
      simp only [caretToStars, hcb, if_false, Bool.false_eq_true]
      by_cases ha : c.isAlpha = true
      · simp only [ha, if_true, dropWS_caretToStars]
        cases h2 : dropWS r with
        | nil => rfl
        | cons d r2 =>
          by_cases hd : (d == '^') = true
          · have hd' : d = '^' := beq_iff_eq.mp hd
            subst hd'
            simp [caretToStars]
          · have hdb : (d == '^') = false := eq_false_of_ne_true hd
            simp only [caretToStars, hdb, if_false, Bool.false_eq_true]
            by_cases he : (d == '=') = true
            · simp [he, dropWS_caretToStars]
            · have heb : (d == '=') = false := eq_false_of_ne_true he
              simp [heb]
      · have hab : c.isAlpha = false := eq_false_of_ne_true ha
        simp [hab]

theorem stripAssign_caretToStars (cs : List Char) :
    stripAssign (caretToStars cs) = caretToStars (stripAssign cs) := by
  rw [stripAssign, stripAssign, matchAssign_caretToStars]
  cases matchAssign cs with
  | none => rfl
  | some t => rfl

theorem eqNormalize_caretToStars (cs : List Char) :
    eqNormalize (caretToStars cs) = eqNormalize cs := by
  rw [eqNormalize, eqNormalize, stripAssign_caretToStars, caretToStars_idem]

/-- C4 counterexample: the normalization of prompt_equation strips only a
single-letter assignment head, not a general identifier head. On the input
ab=x the identifier-wide reading of the claim yields x, while the code
leaves the text unchanged, so the claim as stated fails on the code. -/
theorem c4_counterexample_two_letter_head :
    eqNormalizeClaim "ab=x".data = "x".data ∧
    eqNormalize "ab=x".data = "ab=x".data ∧
    eqNormalize "ab=x".data ≠ eqNormalizeClaim "ab=x".data := by
  refine ⟨by decide, by decide, by decide⟩

/-- C4 amended: the normalization performs exactly the three rewrites of
lines 54 to 58 with the assignment head restricted to a single letter
(eqNormalize is their composition in source order); consequently an input
written with the caret normalizes to the identical string as the equivalent
input written with the double-asterisk power operator, a digit directly
followed by a letter or opening parenthesis gets an explicit multiplication
sign, and a single-letter head such as y-equals is stripped while the
two-letter head of ab-equals is not. -/
theorem c4_amended_normalization_rewrites :
    (∀ cs : List Char, eqNormalize (caretToStars cs) = eqNormalize cs) ∧
    eqNormalizeStr "y = x^2 + sin(x)" = "x**2 + sin(x)" ∧
    eqNormalizeStr "2x" = "2*x" ∧
    eqNormalizeStr "3(x+1)" = "3*(x+1)" ∧
    eqNormalizeStr "ab = x" = "ab = x" :=
  ⟨eqNormalize_caretToStars, by decide, by decide, by decide, by decide⟩

/-- Value of a list of decimal digit characters. -/
def digitsToNat (cs : List Char) : Nat :=
  cs.foldl (fun acc c => 10 * acc + (c.toNat - '0'.toNat)) 0

/-- Model of Python str.split with a one-character separator: the text is cut
at every occurrence of the separator, and empty segments are kept (splitting
the empty text gives one empty segment). -/
def splitOnChar (sep : Char) : List Char → List (List Char)
  | [] => [[]]
  | c :: r =>
    if c == sep then [] :: splitOnChar sep r
    else
      match splitOnChar sep r with
      | h :: t => (c :: h) :: t
      | [] => [[c]]

/-- Model of a Python float value as this program can observe it: a finite
value (kept as an exact rational where Python rounds to the nearest double),
one of the two infinities, or NaN. -/
inductive PyFloat where
  | num : ℚ → PyFloat
  | posInf : PyFloat
  | negInf : PyFloat
  | nan : PyFloat
deriving DecidableEq

/-- IEEE semantics of the Python comparison xmin >= xmax used at line 78:
any comparison involving NaN is false; the infinities compare as extremes. -/
def PyFloat.geB : PyFloat → PyFloat → Bool
  | nan, _ => false
  | _, nan => false
  | posInf, _ => true
  | _, posInf => false
  | _, negInf => true
  | negInf, _ => false
  | num a, num b => decide (a ≥ b)

/-- IEEE semantics of the strict comparison min < max the claim speaks of:
any comparison involving NaN is false. -/
def PyFloat.ltB : PyFloat → PyFloat → Bool
  | nan, _ => false
  | _, nan => false
  | posInf, _ => false
  | _, posInf => true
  | negInf, negInf => false
  | negInf, num _ => true
  | num _, negInf => false
  | num a, num b => decide (a < b)

/-- Greedy consumer of one Python digit group: digits with single
underscores allowed only between two digits (the float-literal grammar since
Python 3.6). Returns the digits with the underscores removed, and the
unconsumed remainder of the text. -/
def digitGroup : List Char → List Char × List Char
  | [] => ([], [])
  | c :: '_' :: d :: r2 =>
    if c.isDigit then
      if d.isDigit then
        let p := digitGroup (d :: r2)
        (c :: p.1, p.2)
      else ([c], '_' :: d :: r2)
    else ([], c :: '_' :: d :: r2)
  | c :: r =>
    if c.isDigit then
      let p := digitGroup r
      (c :: p.1, p.2)
    else ([], c :: r)

/-- Model of the Python float constructor: surrounding whitespace is
ignored, then an optional sign followed by either one of the case-insensitive
names inf, infinity and nan, or a decimal significand (integer digits, an
optional fractional part after a dot, at least one digit in total, with
underscore digit grouping) with an optional signed decimal exponent. Finite
values are kept as exact rationals where Python rounds to the nearest
double. -/
def parseFloatChars (cs0 : List Char) : Option PyFloat :=
  let cs := stripChars cs0
  let neg : Bool := match cs with | '-' :: _ => true | _ => false
  let cs1 : List Char := match cs with
    | '-' :: r => r
    | '+' :: r => r
    | _ => cs
  let lower := cs1.map Char.toLower
  if lower = ['i', 'n', 'f'] ∨ lower = ['i', 'n', 'f', 'i', 'n', 'i', 't', 'y'] then
    some (if neg then PyFloat.negInf else PyFloat.posInf)
  else if lower = ['n', 'a', 'n'] then
    some PyFloat.nan
  else
    let ipr := digitGroup cs1
    let fr : Option (List Char) × List Char :=
      match ipr.2 with
      | '.' :: r => let p := digitGroup r; (some p.1, p.2)
      | _ => (none, ipr.2)
    let intPart := ipr.1
    let fracPart := (fr.1).getD []
    if intPart.isEmpty && fracPart.isEmpty then none
    else
      let m : ℤ := if neg then -(digitsToNat (intPart ++ fracPart) : ℤ)
                   else (digitsToNat (intPart ++ fracPart) : ℤ)
      match fr.2 with
      | [] =>
        some (PyFloat.num (if fracPart.isEmpty then ((m : ℤ) : ℚ)
          else ((m : ℤ) : ℚ) / (10 : ℚ) ^ fracPart.length))
      | e :: r3 =>
        if e == 'e' || e == 'E' then
          let eneg : Bool := match r3 with | '-' :: _ => true | _ => false
          let r4 : List Char := match r3 with
            | '-' :: rr => rr
            | '+' :: rr => rr
            | _ => r3
          let ep := digitGroup r4
          if ep.1.isEmpty || !ep.2.isEmpty then none
          else
            let k : ℤ := (if eneg then -(digitsToNat ep.1 : ℤ) else (digitsToNat ep.1 : ℤ))
              - (fracPart.length : ℤ)
            some (PyFloat.num (((m : ℤ) : ℚ) * (10 : ℚ) ^ k))
        else none

/-- String-level wrapper of the float-constructor model. -/
def parseFloat (s : String) : Option PyFloat := parseFloatChars s.data

/-- Sanity evaluation of the exponent path of the float model. -/
theorem parseFloat_scientific : parseFloat "2.5e3" =
    some (PyFloat.num ((((25 : ℤ) : ℚ)) * (10 : ℚ) ^ ((2 : ℕ) : ℤ))) := rfl

/-- One domain entry of prompt_domain lines 76 to 77: the stripped input line
falls back to the default value when empty (the Python or-expression), and is
otherwise handed to float, whose failure raises the ValueError caught at
line 82. -/
def domainEntry (d : PyFloat) (s : String) : Option PyFloat :=
  if pyStrip s = "" then some d else parseFloat s

/-- Model of prompt_domain (lines 65 to 84) as a function of the two entered
lines: a float failure in either entry returns the default pair, an accepted
pair whose min compares greater than or equal to its max returns the default
pair, and otherwise the user pair is returned (including NaN and infinite
entries, which float accepts). -/
def prompt_domain (s1 s2 : String) : PyFloat × PyFloat :=
  match domainEntry (PyFloat.num (-5)) s1 with
  | none => (PyFloat.num (-5), PyFloat.num 5)
  | some xmin =>
    match domainEntry (PyFloat.num 5) s2 with
    | none => (PyFloat.num (-5), PyFloat.num 5)
    | some xmax =>
      if PyFloat.geB xmin xmax then (PyFloat.num (-5), PyFloat.num 5) else (xmin, xmax)

/-- Model of the pair parsing of prompt_coordinates lines 127 to 129: the
segment must split on the comma into exactly two parts (the tuple unpacking
raises otherwise) and both parts must parse as floats. -/
def parsePair (cs : List Char) : Option (PyFloat × PyFloat) :=
  match splitOnChar ',' cs with
  | [xs, ys] =>
    match parseFloatChars xs, parseFloatChars ys with
    | some a, some b => some (a, b)
    | _, _ => none
  | _ => none

/-- Model of the parsing loop of prompt_coordinates lines 125 to 130: the
pairs are accumulated in order and the first failing pair discards the whole
line (the exception aborts the loop). -/
def parsePtsList : List (List Char) → Option (List (PyFloat × PyFloat))
  | [] => some []
  | s :: rest =>
    match parsePair s, parsePtsList rest with
    | some p, some ps => some (p :: ps)
    | _, _ => none

/-- Parsing of one full input line of prompt_coordinates: strip the line,
split it on semicolons, parse every pair. -/
def parseLine (data : String) : Option (List (PyFloat × PyFloat)) :=
  parsePtsList (splitOnChar ';' (stripChars data.data))

/-- Model of the re-prompt loop of prompt_coordinates (lines 112 to 136) over
the successive input lines: a line that fails to parse, or parses to fewer
than two pairs, is discarded whole and the next line is read; the first
acceptable line is returned. -/
def prompt_coordinates : List String → Option (List (PyFloat × PyFloat))
  | [] => none
  | l :: rest =>
    match parseLine l with
    | some pts => if pts.length < 2 then prompt_coordinates rest else some pts
    | none => prompt_coordinates rest

theorem pyFloat_lt_of_not_ge (a b : PyFloat) (ha : a ≠ PyFloat.nan) (hb : b ≠ PyFloat.nan)
    (h : PyFloat.geB a b = false) : PyFloat.ltB a b = true := by
  cases a <;> cases b <;> simp_all [PyFloat.geB, PyFloat.ltB]

/-- C2 counterexample: the entry nan is accepted by float, the comparison
nan >= 5.0 is false, so prompt_domain returns the user pair (nan, 5.0)
rather than the default pair, and that returned pair satisfies neither
min < max nor min >= max, refuting the claimed invariant that the returned
pair always satisfies min < max. -/
theorem c2_counterexample_nan_entry :
    prompt_domain "nan" "" = (PyFloat.nan, PyFloat.num 5) ∧
    PyFloat.ltB (prompt_domain "nan" "").1 (prompt_domain "nan" "").2 = false ∧
    PyFloat.geB (prompt_domain "nan" "").1 (prompt_domain "nan" "").2 = false := by
  refine ⟨by decide, by decide, by decide⟩

/-- C2 amended: when either entry fails the float parse prompt_domain
returns the full default pair; when both entries parse, a min that compares
greater than or equal to the max (IEEE semantics) discards both user entries
in favour of the full default pair, and otherwise the user pair is returned;
the returned pair satisfies min < max whenever no accepted entry is NaN (a
NaN entry is accepted by float, fails both comparisons, and is returned in
the pair). -/
theorem c2_amended_prompt_domain (s1 s2 : String) :
    ((domainEntry (PyFloat.num (-5)) s1 = none ∨ domainEntry (PyFloat.num 5) s2 = none) →
      prompt_domain s1 s2 = (PyFloat.num (-5), PyFloat.num 5)) ∧
    (∀ a b : PyFloat, domainEntry (PyFloat.num (-5)) s1 = some a →
        domainEntry (PyFloat.num 5) s2 = some b →
        (PyFloat.geB a b = true → prompt_domain s1 s2 = (PyFloat.num (-5), PyFloat.num 5)) ∧
        (PyFloat.geB a b = false → prompt_domain s1 s2 = (a, b))) ∧
    (domainEntry (PyFloat.num (-5)) s1 ≠ some PyFloat.nan →
      domainEntry (PyFloat.num 5) s2 ≠ some PyFloat.nan →
      PyFloat.ltB (prompt_domain s1 s2).1 (prompt_domain s1 s2).2 = true) := by
  cases h1 : domainEntry (PyFloat.num (-5)) s1 with
  | none =>
    have hpd : prompt_domain s1 s2 = (PyFloat.num (-5), PyFloat.num 5) := by
      simp only [prompt_domain, h1]
    refine ⟨fun _ => hpd, ?_, fun _ _ => by rw [hpd]; decide⟩
    intro a b ha _
    exact absurd ha (by simp)
  | some xmin =>
    cases h2 : domainEntry (PyFloat.num 5) s2 with
    | none =>
      have hpd : prompt_domain s1 s2 = (PyFloat.num (-5), PyFloat.num 5) := by
        simp only [prompt_domain, h1, h2]
      refine ⟨fun _ => hpd, ?_, fun _ _ => by rw [hpd]; decide⟩
      intro a b _ hb
      exact absurd hb (by simp)
    | some xmax =>
      have hmatch : prompt_domain s1 s2 =
          if PyFloat.geB xmin xmax then (PyFloat.num (-5), PyFloat.num 5)
          else (xmin, xmax) := by
        simp only [prompt_domain, h1, h2]
      by_cases hge : PyFloat.geB xmin xmax = true
      · have hpd : prompt_domain s1 s2 = (PyFloat.num (-5), PyFloat.num 5) := by
          rw [hmatch, if_pos hge]
        refine ⟨?_, ?_, fun _ _ => by rw [hpd]; decide⟩
        · rintro (h | h)
          · exact absurd h (by simp)
          · exact absurd h (by simp)
        · intro a b ha hb
          obtain rfl : xmin = a := by injection ha
          obtain rfl : xmax = b := by injection hb
          exact ⟨fun _ => hpd, fun hf => absurd hge (by simp [hf])⟩
      · have hgef : PyFloat.geB xmin xmax = false := eq_false_of_ne_true hge
        have hpd : prompt_domain s1 s2 = (xmin, xmax) := by rw [hmatch, if_neg hge]
        refine ⟨?_, ?_, ?_⟩
        · rintro (h | h)
          · exact absurd h (by simp)
          · exact absurd h (by simp)
        · intro a b ha hb
          obtain rfl : xmin = a := by injection ha
          obtain rfl : xmax = b := by injection hb
          exact ⟨fun ht => absurd ht (by simp [hgef]), fun _ => hpd⟩
        · intro hna hnb
          rw [hpd]
          have ha : xmin ≠ PyFloat.nan := fun he => hna (by rw [he])
          have hb : xmax ≠ PyFloat.nan := fun he => hnb (by rw [he])
          exact pyFloat_lt_of_not_ge xmin xmax ha hb hgef

/-- Witness for the amended C2 theorem at concrete inputs: the ordered-wrong
entries 5 and -5 are discarded for the default pair, the entries 1 and 2 are
kept, the unparseable entry abc yields the default pair, and the non-NaN run
satisfies min < max. -/
theorem c2_amended_prompt_domain_witness :
    prompt_domain "5" "-5" = (PyFloat.num (-5), PyFloat.num 5) ∧
    prompt_domain "1" "2" = (PyFloat.num 1, PyFloat.num 2) ∧
    prompt_domain "abc" "2" = (PyFloat.num (-5), PyFloat.num 5) ∧
    PyFloat.ltB (prompt_domain "1" "2").1 (prompt_domain "1" "2").2 = true :=
  ⟨((c2_amended_prompt_domain "5" "-5").2.1 (PyFloat.num 5) (PyFloat.num (-5))
      (by decide) (by decide)).1 (by decide),
   ((c2_amended_prompt_domain "1" "2").2.1 (PyFloat.num 1) (PyFloat.num 2)
      (by decide) (by decide)).2 (by decide),
   (c2_amended_prompt_domain "abc" "2").1 (Or.inl (by decide)),
   (c2_amended_prompt_domain "1" "2").2.2 (by decide) (by decide)⟩

/-- C3: whenever the re-prompt loop of prompt_coordinates returns a value, it
is a list of at least two pairs obtained by parsing one single accepted input
line; and one failing pair in a line makes the parse of the whole line fail
(so the entire line is discarded, not just the bad pair). -/
theorem c3_prompt_coordinates_at_least_two_pairs :
    (∀ (lines : List String) (pts : List (PyFloat × PyFloat)),
        prompt_coordinates lines = some pts →
        2 ≤ pts.length ∧ ∃ l ∈ lines, parseLine l = some pts) ∧
    (∀ (segs : List (List Char)) (s : List Char), s ∈ segs → parsePair s = none →
        parsePtsList segs = none) := by
  constructor
  · intro lines
    induction lines with
    | nil => intro pts h; exact absurd h (by simp [prompt_coordinates])
    | cons l rest ih =>
      intro pts h
      rw [prompt_coordinates] at h
      cases hp : parseLine l with
      | none =>
        rw [hp] at h
        have h' : prompt_coordinates rest = some pts := h
        obtain ⟨hlen, l', hl', hpl⟩ := ih pts h'
        exact ⟨hlen, l', List.mem_cons_of_mem _ hl', hpl⟩
      | some q =>
        rw [hp] at h
        have h' : (if q.length < 2 then prompt_coordinates rest else some q) = some pts := h
        by_cases hq : q.length < 2
        · rw [if_pos hq] at h'
          obtain ⟨hlen, l', hl', hpl⟩ := ih pts h'
          exact ⟨hlen, l', List.mem_cons_of_mem _ hl', hpl⟩
        · rw [if_neg hq] at h'
          obtain rfl : q = pts := by injection h'
          exact ⟨by omega, l, List.mem_cons_self _ _, hp⟩
  · intro segs s hmem hnone
    induction segs with
    | nil => exact absurd hmem (by simp)
    | cons t rest ih =>
      rw [parsePtsList]
      rcases List.mem_cons.mp hmem with rfl | hmem'
      · rw [hnone]
      · rw [ih hmem']
        cases parsePair t <;> rfl

/-- Witness for the C3 theorem at concrete inputs: the accepted line
0,0 semicolon 1,2 yields two pairs, and a line with the unparseable segment
zzz is rejected as a whole. -/
theorem c3_prompt_coordinates_at_least_two_pairs_witness :
    (2 ≤ ([(PyFloat.num 0, PyFloat.num 0), (PyFloat.num 1, PyFloat.num 2)]).length ∧
      ∃ l ∈ ["0,0; 1,2"],
        parseLine l = some [(PyFloat.num 0, PyFloat.num 0), (PyFloat.num 1, PyFloat.num 2)]) ∧
    parsePtsList ["0,0".data, "zzz".data] = none :=
  ⟨c3_prompt_coordinates_at_least_two_pairs.1 ["0,0; 1,2"]
      [(PyFloat.num 0, PyFloat.num 0), (PyFloat.num 1, PyFloat.num 2)] (by decide),
   c3_prompt_coordinates_at_least_two_pairs.2 ["0,0".data, "zzz".data] "zzz".data
      (by decide) (by decide)⟩

/-- Model of Python str.lower on the ASCII text this program compares
against. -/
def lowerStr (s : String) : String := ⟨s.data.map Char.toLower⟩

/-- Model of prompt_labels (lines 86 to 100) as a function of the three
entered lines: when the stripped lowercased answer is y or yes, both raw
labels are stripped and wrapped in dollar signs; any other answer yields the
default labels. -/
def prompt_labels (choice xraw yraw : String) : String × String :=
  if lowerStr (pyStrip choice) = "y" ∨ lowerStr (pyStrip choice) = "yes" then
    ("$" ++ pyStrip xraw ++ "$", "$" ++ pyStrip yraw ++ "$")
  else
    ("$x$", "$y$")

theorem dollar_wrap_data (t : String) :
    ("$" ++ t ++ "$").data = '$' :: (t.data ++ ['$']) := by
  rw [String.data_append, String.data_append]
  rfl

/-- C10: both labels returned by prompt_labels begin and end with a dollar
sign, and when the user affirms custom labels but a stripped label text is
empty the corresponding label is the literal two-character dollar-dollar
string. -/
theorem c10_labels_dollar_wrapped (choice xraw yraw : String) :
    ((prompt_labels choice xraw yraw).1.data.head? = some '$' ∧
     (prompt_labels choice xraw yraw).1.data.getLast? = some '$' ∧
     (prompt_labels choice xraw yraw).2.data.head? = some '$' ∧
     (prompt_labels choice xraw yraw).2.data.getLast? = some '$') ∧
    ((lowerStr (pyStrip choice) = "y" ∨ lowerStr (pyStrip choice) = "yes") →
      (pyStrip xraw = "" → (prompt_labels choice xraw yraw).1 = "$$") ∧
      (pyStrip yraw = "" → (prompt_labels choice xraw yraw).2 = "$$")) := by
  by_cases hc : (lowerStr (pyStrip choice) = "y" ∨ lowerStr (pyStrip choice) = "yes")
  · have hpl : prompt_labels choice xraw yraw =
        ("$" ++ pyStrip xraw ++ "$", "$" ++ pyStrip yraw ++ "$") := by
      rw [prompt_labels, if_pos hc]
    rw [hpl]
    refine ⟨⟨?_, ?_, ?_, ?_⟩, ?_⟩
    · rw [dollar_wrap_data]; rfl
    · rw [dollar_wrap_data]
      rw [show ('$' :: ((pyStrip xraw).data ++ ['$'])) =
        ('$' :: (pyStrip xraw).data) ++ ['$'] from rfl]
      exact List.getLast?_concat _
    · rw [dollar_wrap_data]; rfl
    · rw [dollar_wrap_data]
      rw [show ('$' :: ((pyStrip yraw).data ++ ['$'])) =
        ('$' :: (pyStrip yraw).data) ++ ['$'] from rfl]
      exact List.getLast?_concat _
    · intro _
      constructor
      · intro hx
        rw [hx]
        show ("$" ++ "" ++ "$") = "$$"
        decide
      · intro hy
        rw [hy]
        show ("$" ++ "" ++ "$") = "$$"
        decide
  · have hpl : prompt_labels choice xraw yraw = ("$x$", "$y$") := by
      rw [prompt_labels, if_neg hc]
    rw [hpl]
    exact ⟨⟨by decide, by decide, by decide, by decide⟩, fun h => absurd h hc⟩

/-- Witness for the C10 theorem at concrete inputs: affirming with YES and
entering a whitespace-only x label yields the bare dollar-dollar label. -/
theorem c10_labels_dollar_wrapped_witness :
    (prompt_labels "YES " "  " " b ").1 = "$$" :=
  ((c10_labels_dollar_wrapped "YES " "  " " b ").2 (Or.inr (by decide))).1 (by decide)

/-- Number of occurrences of a character in a string. -/
def countChar (c : Char) (s : String) : Nat := s.data.count c

theorem countChar_append (c : Char) (a b : String) :
    countChar c (a ++ b) = countChar c a + countChar c b := by
  simp [countChar, String.data_append, List.count_append]

theorem countChar_joinSpace (c : Char) (hsp : c ≠ ' ') :
    ∀ l : List String, (∀ s ∈ l, countChar c s = 1) →
      countChar c (joinSpace l) = l.length := by
  intro l
  induction l with
  | nil => intro _; simp [joinSpace, countChar]
  | cons s rest ih =>
    intro h
    cases rest with
    | nil =>
      have h1 : countChar c s = 1 := h s (by simp)
      simpa [joinSpace] using h1
    | cons t r =>
      have e : joinSpace (s :: t :: r) = s ++ " " ++ joinSpace (t :: r) := rfl
      rw [e, countChar_append, countChar_append]
      rw [h s (by simp)]
      have hsp0 : countChar c " " = 0 := by
        simp only [countChar]
        exact List.count_eq_zero.mpr (by simpa using hsp)
      rw [hsp0, ih (fun x hx => h x (by simp [hx]))]
      simp [List.length_cons]
      omega

theorem countChar_pairTex (c : Char) (p : String × String)
    (h1 : c ∉ p.1.data) (h2 : c ∉ p.2.data)
    (hdelim : countChar c "(" + countChar c "," + countChar c ")" = 1) :
    countChar c (pairTex p) = 1 := by
  have e : pairTex p = ((("(" ++ p.1) ++ ",") ++ p.2) ++ ")" := rfl
  rw [e, countChar_append, countChar_append, countChar_append, countChar_append]
  have z1 : countChar c p.1 = 0 := by
    simp only [countChar]; exact List.count_eq_zero.mpr h1
  have z2 : countChar c p.2 = 0 := by
    simp only [countChar]; exact List.count_eq_zero.mpr h2
  rw [z1, z2]
  omega

/-- C7: the coordinate-mode output contains the coordinates clause built by
joining, in the original input order, the serialized pair of every point with
single spaces; that clause holds exactly one pair group per input point, as
the count of opening and closing parentheses shows whenever the serialized
numeric components contain no parentheses. -/
theorem c7_coordinate_groups (pts : List (String × String)) (xl yl col : String) :
    strContains (generate_tikz_coordinates pts xl yl col)
      ("coordinates \x7b" ++ joinSpace (pts.map pairTex) ++ "\x7d") ∧
    (pts.map pairTex).length = pts.length ∧
    ((∀ p ∈ pts, '(' ∉ p.1.data ∧ ')' ∉ p.1.data ∧ '(' ∉ p.2.data ∧ ')' ∉ p.2.data) →
      countChar '(' (joinSpace (pts.map pairTex)) = pts.length ∧
      countChar ')' (joinSpace (pts.map pairTex)) = pts.length) := by
  refine ⟨⟨PREAMBLE ++ coordHeaderRest xl yl col, coordTail, rfl⟩, by simp, ?_⟩
  intro h
  have hopen : ∀ s ∈ pts.map pairTex, countChar '(' s = 1 := by
    intro s hs
    obtain ⟨p, hp, rfl⟩ := List.mem_map.mp hs
    exact countChar_pairTex '(' p (h p hp).1 (h p hp).2.2.1 (by decide)
  have hclose : ∀ s ∈ pts.map pairTex, countChar ')' s = 1 := by
    intro s hs
    obtain ⟨p, hp, rfl⟩ := List.mem_map.mp hs
    exact countChar_pairTex ')' p (h p hp).2.1 (h p hp).2.2.2 (by decide)
  constructor
  · rw [countChar_joinSpace '(' (by decide) _ hopen]
    simp
  · rw [countChar_joinSpace ')' (by decide) _ hclose]
    simp

/-- Witness for the C7 theorem at a concrete two-point list. -/
theorem c7_coordinate_groups_witness :
    countChar '(' (joinSpace (([(("0" : String), ("0" : String)), ("1", "2")]).map pairTex)) = 2 ∧
    countChar ')' (joinSpace (([(("0" : String), ("0" : String)), ("1", "2")]).map pairTex)) = 2 :=
  (c7_coordinate_groups [("0", "0"), ("1", "2")] "$x$" "$y$" "black").2.2 (by decide)

/-- C9: both rendering functions are total pure functions in the embedding
(they are defined for every input as plain string composition, with no
failure value in their result type), and they are deterministic: equal
arguments always produce equal output strings. -/
theorem c9_render_total_deterministic :
    (∀ raw a b xl yl col raw' a' b' xl' yl' col' : String,
        raw = raw' → a = a' → b = b' → xl = xl' → yl = yl' → col = col' →
        generate_pgfplots_equation raw a b xl yl col =
          generate_pgfplots_equation raw' a' b' xl' yl' col') ∧
    (∀ (pts pts' : List (String × String)) (xl yl col xl' yl' col' : String),
        pts = pts' → xl = xl' → yl = yl' → col = col' →
        generate_tikz_coordinates pts xl yl col =
          generate_tikz_coordinates pts' xl' yl' col') := by
  constructor
  · intro raw a b xl yl col raw' a' b' xl' yl' col' h1 h2 h3 h4 h5 h6
    rw [h1, h2, h3, h4, h5, h6]
  · intro pts pts' xl yl col xl' yl' col' h1 h2 h3 h4
    rw [h1, h2, h3, h4]

/-- Witness for the C9 theorem at concrete equal arguments. -/
theorem c9_render_total_deterministic_witness :
    generate_pgfplots_equation "x" "-5" "5" "$x$" "$y$" "black" =
      generate_pgfplots_equation "x" "-5" "5" "$x$" "$y$" "black" ∧
    generate_tikz_coordinates [("0", "0"), ("1", "1")] "$x$" "$y$" "black" =
      generate_tikz_coordinates [("0", "0"), ("1", "1")] "$x$" "$y$" "black" :=
  ⟨c9_render_total_deterministic.1 "x" "-5" "5" "$x$" "$y$" "black"
      "x" "-5" "5" "$x$" "$y$" "black" rfl rfl rfl rfl rfl rfl,
   c9_render_total_deterministic.2 [("0", "0"), ("1", "1")] [("0", "0"), ("1", "1")]
      "$x$" "$y$" "black" "$x$" "$y$" "black" rfl rfl rfl rfl⟩
